import Mathlib

/-!
Verification of the `FEInterface` dispatch facade of libmesh
(`src/libmesh/include/fe_interface.h`).

The repository ships only the interface header: every member function of
`FEInterface` is declared but its body lives outside the visible sources.
Following the specification, the operations are therefore modelled here from
the spec's words, over exact rational arithmetic (`ℚ` in place of the C++
`real` scalar type).
-/

namespace LibMesh

/-- Modelled from the spec: the n-dimensional point/vector type (`point.h`,
consumed infrastructure, "coordinate tuples"); componentwise access, three
components as in the C++ `Point`. -/
structure Point where
  x : ℚ
  y : ℚ
  z : ℚ
deriving DecidableEq, Repr

def Point.zero : Point := ⟨0, 0, 0⟩

instance : Zero Point := ⟨Point.zero⟩

def Point.add (a b : Point) : Point := ⟨a.x + b.x, a.y + b.y, a.z + b.z⟩

def Point.sub (a b : Point) : Point := ⟨a.x - b.x, a.y - b.y, a.z - b.z⟩

def Point.smul (q : ℚ) (a : Point) : Point := ⟨q * a.x, q * a.y, q * a.z⟩

instance : Add Point := ⟨Point.add⟩

instance : Sub Point := ⟨Point.sub⟩

instance : SMul ℚ Point := ⟨Point.smul⟩

/-- Squared Euclidean norm, used for residual-norm convergence tests
(squared so the test stays inside ℚ). -/
def Point.normSq (a : Point) : ℚ := a.x ^ 2 + a.y ^ 2 + a.z ^ 2

/-- Modelled from the spec: the closed `GeometryTag` enumeration
(`enum_elem_type.h`, not in the visible sources): canonical reference-element
shapes "edge, triangle, quad, tetrahedron, hexahedron, prism, pyramid". -/
inductive ElemType where
  | Edge2
  | Tri3
  | Quad4
  | Tet4
  | Hex8
  | Prism6
  | Pyramid5
deriving DecidableEq, Repr

/-- Modelled from the spec: intrinsic dimension of each reference geometry
("DimensionTag ... must match the geometry's intrinsic dimension"). -/
def elemDim : ElemType → Nat
  | .Edge2 => 1
  | .Tri3 => 2
  | .Quad4 => 2
  | .Tet4 => 3
  | .Hex8 => 3
  | .Prism6 => 3
  | .Pyramid5 => 3

/-- Modelled from the spec: local node count of each geometry
(mesh interface: "local node count for a given ElementInstance"). -/
def n_nodes : ElemType → Nat
  | .Edge2 => 2
  | .Tri3 => 3
  | .Quad4 => 4
  | .Tet4 => 4
  | .Hex8 => 8
  | .Prism6 => 6
  | .Pyramid5 => 5

/-- Modelled from the spec: the interpolation-family half of the
`FamilyDescriptor` (`FEType`, declared but not defined in the header).
`lagrange` doubles as the baseline default family ("By default, the FEBase
class methods are used"). -/
inductive FEFamily where
  | lagrange
  | hierarchic
  | monomial
deriving DecidableEq, Repr

/-- Modelled from the spec: `FEType`, the `FamilyDescriptor` — "identifies an
interpolation family and its polynomial order"; immutable value compared by
value for dispatch. -/
structure FEType where
  family : FEFamily
  order : Nat
deriving DecidableEq, Repr

/-- Modelled from the spec: the error kinds of section 7 of the design. -/
inductive FEError where
  | unsupportedCombination
  | unsupportedGeometry
  | indexOutOfRange
  | sizeMismatch
  | inverseMapDidNotConverge
deriving DecidableEq, Repr

/-- Modelled from the spec: `ElementInstance` — read-only view of one mesh
element: geometry tag and ordered node coordinates (`Elem`, declared but not
defined in the header). -/
structure Elem where
  type : ElemType
  nodes : List Point
deriving DecidableEq, Repr

namespace FEInterface

/-- Modelled from the spec: the Containment Tester
(`FEInterface::on_reference_element`, body not in the visible sources).
"For each geometry, the canonical domain is a closed polytope defined by a
small fixed set of linear inequality constraints on the reference coordinates
(e.g., for the unit right triangle: x ≥ -eps, y ≥ -eps, x + y ≤ 1 + eps).
The tolerance eps loosens every inequality by exactly eps in the permissive
direction. Default eps = 1e-6."  Tensor-product geometries use the
[-1,1]^n reference cube of the spec's data model. -/
def on_reference_element (p : Point) (t : ElemType) (eps : ℚ := 1/1000000) : Bool :=
  match t with
  | .Edge2 =>
      decide (-1 - eps ≤ p.x) && decide (p.x ≤ 1 + eps)
  | .Tri3 =>
      decide (-eps ≤ p.x) && decide (-eps ≤ p.y) && decide (p.x + p.y ≤ 1 + eps)
  | .Quad4 =>
      decide (-1 - eps ≤ p.x) && decide (p.x ≤ 1 + eps) &&
      decide (-1 - eps ≤ p.y) && decide (p.y ≤ 1 + eps)
  | .Tet4 =>
      decide (-eps ≤ p.x) && decide (-eps ≤ p.y) && decide (-eps ≤ p.z) &&
      decide (p.x + p.y + p.z ≤ 1 + eps)
  | .Hex8 =>
      decide (-1 - eps ≤ p.x) && decide (p.x ≤ 1 + eps) &&
      decide (-1 - eps ≤ p.y) && decide (p.y ≤ 1 + eps) &&
      decide (-1 - eps ≤ p.z) && decide (p.z ≤ 1 + eps)
  | .Prism6 =>
      decide (-eps ≤ p.x) && decide (-eps ≤ p.y) && decide (p.x + p.y ≤ 1 + eps) &&
      decide (-1 - eps ≤ p.z) && decide (p.z ≤ 1 + eps)
  | .Pyramid5 =>
      decide (-eps ≤ p.z) && decide (p.z ≤ 1 + eps) &&
      decide (p.x + p.z ≤ 1 + eps) && decide (-(1 : ℚ) - eps ≤ p.x - p.z) &&
      decide (p.y + p.z ≤ 1 + eps) && decide (-(1 : ℚ) - eps ≤ p.y - p.z)

/-- The spec-side reading of the containment contract: the geometry's linear
inequality constraints, each loosened by `eps` in the permissive direction,
stated as a proposition (used to check `on_reference_element` against the
spec sentence). -/
def inRefDomainLoose (t : ElemType) (p : Point) (eps : ℚ) : Prop :=
  match t with
  | .Edge2 => -1 - eps ≤ p.x ∧ p.x ≤ 1 + eps
  | .Tri3 => -eps ≤ p.x ∧ -eps ≤ p.y ∧ p.x + p.y ≤ 1 + eps
  | .Quad4 => (-1 - eps ≤ p.x ∧ p.x ≤ 1 + eps) ∧ (-1 - eps ≤ p.y ∧ p.y ≤ 1 + eps)
  | .Tet4 => -eps ≤ p.x ∧ -eps ≤ p.y ∧ -eps ≤ p.z ∧ p.x + p.y + p.z ≤ 1 + eps
  | .Hex8 =>
      (-1 - eps ≤ p.x ∧ p.x ≤ 1 + eps) ∧ (-1 - eps ≤ p.y ∧ p.y ≤ 1 + eps) ∧
      (-1 - eps ≤ p.z ∧ p.z ≤ 1 + eps)
  | .Prism6 =>
      (-eps ≤ p.x ∧ -eps ≤ p.y ∧ p.x + p.y ≤ 1 + eps) ∧
      (-1 - eps ≤ p.z ∧ p.z ≤ 1 + eps)
  | .Pyramid5 =>
      (-eps ≤ p.z ∧ p.z ≤ 1 + eps) ∧
      (p.x + p.z ≤ 1 + eps ∧ -(1 : ℚ) - eps ≤ p.x - p.z) ∧
      (p.y + p.z ≤ 1 + eps ∧ -(1 : ℚ) - eps ≤ p.y - p.z)

/-- Modelled from the spec: the per-family table of geometries with a
specialized Evaluator Capability ("an explicit table/policy of which
geometries each family supports").  `lagrange` (the default/FEBase family)
implements the five classic geometries; `monomial` implements the two 2D
geometries; `hierarchic` has no specialized implementation and always uses
the default-family fallback. -/
def specialized : FEFamily → ElemType → Bool
  | .lagrange, .Edge2 => true
  | .lagrange, .Tri3 => true
  | .lagrange, .Quad4 => true
  | .lagrange, .Tet4 => true
  | .lagrange, .Hex8 => true
  | .lagrange, _ => false
  | .monomial, .Tri3 => true
  | .monomial, .Quad4 => true
  | .monomial, _ => false
  | .hierarchic, _ => false

/-- Modelled from the spec: the dispatch rule — "resolution is effectively a
lookup keyed by (family.kind, geometry) ... if no specialized Evaluator
Capability exists for a requested family on a given geometry, the Router
falls back to the default family's implementation" (the "use FEBase by
default" rule of the header). -/
def resolveFamily (fam : FEFamily) (t : ElemType) : FEFamily :=
  if specialized fam t then fam else .lagrange

/-- Modelled from the spec: which geometries the resolved evaluator actually
implements (the evaluator registration table). -/
def evalSupported : FEFamily → ElemType → Bool
  | .lagrange, .Edge2 => true
  | .lagrange, .Tri3 => true
  | .lagrange, .Quad4 => true
  | .lagrange, .Tet4 => true
  | .lagrange, .Hex8 => true
  | .monomial, .Tri3 => true
  | .monomial, .Quad4 => true
  | _, _ => false

/-- Modelled from the spec: a `(dim, family/order, geometry)` triple is
supported when the dimension matches the geometry's intrinsic dimension,
the (first-order) evaluators are implemented for the resolved family, and
the order is the first order the modelled evaluators provide. -/
def supportedB (dim : Nat) (fe_t : FEType) (t : ElemType) : Bool :=
  (dim == elemDim t) && (fe_t.order == 1) &&
    evalSupported (resolveFamily fe_t.family t) t

/-- Modelled from the spec: the Evaluator Capability's `shapeFunctionCount`
for each implemented (family, geometry): one Lagrange shape function per
node, three first-order monomial modes in 2D. -/
def shapeCount : FEFamily → ElemType → Nat
  | .lagrange, t => n_nodes t
  | .monomial, _ => 3
  | .hierarchic, _ => 0

/-- Modelled from the spec: the Evaluator Capability's `dofCount`. -/
def dofCount : FEFamily → ElemType → Nat
  | .lagrange, t => n_nodes t
  | .monomial, _ => 3
  | .hierarchic, _ => 0

/-- Modelled from the spec: the Evaluator Capability's `dofCountAtNode`:
one dof per node for Lagrange, none for the interior-only monomials. -/
def dofCountAtNode : FEFamily → ElemType → Nat → Nat
  | .lagrange, _, _ => 1
  | .monomial, _, _ => 0
  | .hierarchic, _, _ => 0

/-- Modelled from the spec: the Evaluator Capability's `interiorDofCount`
("dofs not associated with any node"). -/
def interiorDofCount : FEFamily → ElemType → Nat
  | .lagrange, _ => 0
  | .monomial, _ => 3
  | .hierarchic, _ => 0

/-- Modelled from the spec: the Evaluator Capability's `shapeValue`
formulas — the standard first-order basis on each reference domain
(value for an in-range index; out-of-range indices are rejected by the
Router before this table is consulted). -/
def shapeVal : FEFamily → ElemType → Nat → Point → ℚ
  | .lagrange, .Edge2, 0, p => (1 - p.x) / 2
  | .lagrange, .Edge2, 1, p => (1 + p.x) / 2
  | .lagrange, .Tri3, 0, p => 1 - p.x - p.y
  | .lagrange, .Tri3, 1, p => p.x
  | .lagrange, .Tri3, 2, p => p.y
  | .lagrange, .Quad4, 0, p => (1 - p.x) * (1 - p.y) / 4
  | .lagrange, .Quad4, 1, p => (1 + p.x) * (1 - p.y) / 4
  | .lagrange, .Quad4, 2, p => (1 + p.x) * (1 + p.y) / 4
  | .lagrange, .Quad4, 3, p => (1 - p.x) * (1 + p.y) / 4
  | .lagrange, .Tet4, 0, p => 1 - p.x - p.y - p.z
  | .lagrange, .Tet4, 1, p => p.x
  | .lagrange, .Tet4, 2, p => p.y
  | .lagrange, .Tet4, 3, p => p.z
  | .lagrange, .Hex8, 0, p => (1 - p.x) * (1 - p.y) * (1 - p.z) / 8
  | .lagrange, .Hex8, 1, p => (1 + p.x) * (1 - p.y) * (1 - p.z) / 8
  | .lagrange, .Hex8, 2, p => (1 + p.x) * (1 + p.y) * (1 - p.z) / 8
  | .lagrange, .Hex8, 3, p => (1 - p.x) * (1 + p.y) * (1 - p.z) / 8
  | .lagrange, .Hex8, 4, p => (1 - p.x) * (1 - p.y) * (1 + p.z) / 8
  | .lagrange, .Hex8, 5, p => (1 + p.x) * (1 - p.y) * (1 + p.z) / 8
  | .lagrange, .Hex8, 6, p => (1 + p.x) * (1 + p.y) * (1 + p.z) / 8
  | .lagrange, .Hex8, 7, p => (1 - p.x) * (1 + p.y) * (1 + p.z) / 8
  | .monomial, _, 0, _ => 1
  | .monomial, _, 1, p => p.x
  | .monomial, _, 2, p => p.y
  | _, _, _, _ => 0

/-- Modelled from the spec: reference coordinates of each geometry's local
nodes (used by the nodal reconstruction and the forward map). -/
def nodeRefCoord : ElemType → Nat → Point
  | .Edge2, 0 => ⟨-1, 0, 0⟩
  | .Edge2, 1 => ⟨1, 0, 0⟩
  | .Tri3, 0 => ⟨0, 0, 0⟩
  | .Tri3, 1 => ⟨1, 0, 0⟩
  | .Tri3, 2 => ⟨0, 1, 0⟩
  | .Quad4, 0 => ⟨-1, -1, 0⟩
  | .Quad4, 1 => ⟨1, -1, 0⟩
  | .Quad4, 2 => ⟨1, 1, 0⟩
  | .Quad4, 3 => ⟨-1, 1, 0⟩
  | .Tet4, 0 => ⟨0, 0, 0⟩
  | .Tet4, 1 => ⟨1, 0, 0⟩
  | .Tet4, 2 => ⟨0, 1, 0⟩
  | .Tet4, 3 => ⟨0, 0, 1⟩
  | .Hex8, 0 => ⟨-1, -1, -1⟩
  | .Hex8, 1 => ⟨1, -1, -1⟩
  | .Hex8, 2 => ⟨1, 1, -1⟩
  | .Hex8, 3 => ⟨-1, 1, -1⟩
  | .Hex8, 4 => ⟨-1, -1, 1⟩
  | .Hex8, 5 => ⟨1, -1, 1⟩
  | .Hex8, 6 => ⟨1, 1, 1⟩
  | .Hex8, 7 => ⟨-1, 1, 1⟩
  | _, _ => ⟨0, 0, 0⟩

/-- Modelled from the spec: `FEInterface::n_shape_functions` (body not in
the visible sources) — Router query forwarding `shapeFunctionCount` to the
resolved Evaluator Capability; `UnsupportedCombination` when no capability
is registered for the triple. -/
def n_shape_functions (dim : Nat) (fe_t : FEType) (t : ElemType) :
    Except FEError Nat :=
  if supportedB dim fe_t t then
    .ok (shapeCount (resolveFamily fe_t.family t) t)
  else .error .unsupportedCombination

/-- Modelled from the spec: `FEInterface::n_dofs` (body not in the visible
sources) — Router query forwarding `dofCount`. -/
def n_dofs (dim : Nat) (fe_t : FEType) (t : ElemType) : Except FEError Nat :=
  if supportedB dim fe_t t then
    .ok (dofCount (resolveFamily fe_t.family t) t)
  else .error .unsupportedCombination

/-- Modelled from the spec: `FEInterface::n_dofs_at_node` (body not in the
visible sources) — "nodeIndex must be within the geometry's node count or
fails with IndexOutOfRange". -/
def n_dofs_at_node (dim : Nat) (fe_t : FEType) (t : ElemType) (n : Nat) :
    Except FEError Nat :=
  if supportedB dim fe_t t then
    if n < n_nodes t then
      .ok (dofCountAtNode (resolveFamily fe_t.family t) t n)
    else .error .indexOutOfRange
  else .error .unsupportedCombination

/-- Modelled from the spec: `FEInterface::n_dofs_per_elem` (body not in the
visible sources) — Router query forwarding `interiorDofCount`. -/
def n_dofs_per_elem (dim : Nat) (fe_t : FEType) (t : ElemType) :
    Except FEError Nat :=
  if supportedB dim fe_t t then
    .ok (interiorDofCount (resolveFamily fe_t.family t) t)
  else .error .unsupportedCombination

/-- Modelled from the spec: `FEInterface::shape` (body not in the visible
sources) — "index must be < shapeFunctionCount; fails with IndexOutOfRange
otherwise". -/
def shape (dim : Nat) (fe_t : FEType) (t : ElemType) (i : Nat) (p : Point) :
    Except FEError ℚ :=
  if supportedB dim fe_t t then
    if i < shapeCount (resolveFamily fe_t.family t) t then
      .ok (shapeVal (resolveFamily fe_t.family t) t i p)
    else .error .indexOutOfRange
  else .error .unsupportedCombination

/-- Modelled from the spec: `FEInterface::nodal_soln` (body not in the
visible sources) — "reconstructs one numeric value per mesh node ... length
of solutionVector must equal dofCount; fails with SizeMismatch otherwise".
The value at node `j` interpolates the coefficient vector through the
resolved family's shape functions at the node's reference coordinates. -/
def nodal_soln (dim : Nat) (fe_t : FEType) (e : Elem) (elem_soln : List ℚ) :
    Except FEError (List ℚ) :=
  if supportedB dim fe_t e.type then
    if elem_soln.length = dofCount (resolveFamily fe_t.family e.type) e.type then
      .ok ((List.range (n_nodes e.type)).map (fun j =>
        ((List.range (shapeCount (resolveFamily fe_t.family e.type) e.type)).map
          (fun i => elem_soln.getD i 0 *
            shapeVal (resolveFamily fe_t.family e.type) e.type i
              (nodeRefCoord e.type j))).sum))
    else .error .sizeMismatch
  else .error .unsupportedCombination

/-- Sum of `n_dofs_at_node` over all local nodes of the geometry (used to
state the dof-partition property). -/
def sum_n_dofs_at_node (dim : Nat) (fe_t : FEType) (t : ElemType) :
    Except FEError Nat :=
  (List.range (n_nodes t)).foldl
    (fun acc n =>
      match acc, n_dofs_at_node dim fe_t t n with
      | .ok a, .ok b => .ok (a + b)
      | .error e, _ => .error e
      | .ok _, .error e => .error e)
    (.ok 0)

/-- Local node accessor of an element instance. -/
def node (e : Elem) (i : Nat) : Point := e.nodes.getD i 0

/-- Modelled from the spec: the element's forward map — "forwardMap is
evaluated by summing shapeValue(index, ref) * nodeCoordinate(index) over all
nodes (consuming the Evaluator Capability's shape-value query)". -/
def forwardMap (e : Elem) (r : Point) : Point :=
  (List.range (n_nodes e.type)).foldl
    (fun acc i => acc + shapeVal .lagrange e.type i r • node e i) 0

/-- Cramer solve of the 2-by-2 system `[a b] * (ξ, η) = r` in the x,y
components (ℚ division is total, so a singular system yields a point that
the solver's residual check will reject). -/
def solve2x2 (a b r : Point) : Point :=
  let det := a.x * b.y - a.y * b.x
  ⟨(r.x * b.y - r.y * b.x) / det, (a.x * r.y - a.y * r.x) / det, 0⟩

/-- Cramer solve of the 3-by-3 system `[a b c] * (ξ, η, ζ) = r`. -/
def solve3x3 (a b c r : Point) : Point :=
  let det := a.x * (b.y * c.z - b.z * c.y) - b.x * (a.y * c.z - a.z * c.y) +
    c.x * (a.y * b.z - a.z * b.y)
  ⟨(r.x * (b.y * c.z - b.z * c.y) - b.x * (r.y * c.z - r.z * c.y) +
      c.x * (r.y * b.z - r.z * b.y)) / det,
   (a.x * (r.y * c.z - r.z * c.y) - r.x * (a.y * c.z - a.z * c.y) +
      c.x * (a.y * r.z - a.z * r.y)) / det,
   (a.x * (b.y * r.z - b.z * r.y) - b.x * (a.y * r.z - a.z * r.y) +
      r.x * (a.y * b.z - a.z * b.y)) / det⟩

/-- Modelled from the spec: the affine short-circuit of the Inverse Mapping
Solver — "for affine (linear) maps ... the solver must short-circuit to an
exact closed-form solve (solving the linear system directly) rather than
iterating".  Simplex-type geometries are always affine; a quadrilateral
(resp. hexahedron) is affine exactly when its bilinear (resp. trilinear)
cross terms all vanish. -/
def affineSolve (e : Elem) (p : Point) : Option Point :=
  match e.type with
  | .Edge2 =>
      let a := (1 / 2 : ℚ) • (node e 1 - node e 0)
      let c0 := (1 / 2 : ℚ) • (node e 0 + node e 1)
      some ⟨(p.x - c0.x) / a.x, 0, 0⟩
  | .Tri3 => some (solve2x2 (node e 1 - node e 0) (node e 2 - node e 0) (p - node e 0))
  | .Tet4 =>
      some (solve3x3 (node e 1 - node e 0) (node e 2 - node e 0)
        (node e 3 - node e 0) (p - node e 0))
  | .Quad4 =>
      let m := (1 / 4 : ℚ) • (node e 0 + node e 2 - node e 1 - node e 3)
      if m = 0 then
        let c0 := (1 / 4 : ℚ) • (node e 0 + node e 1 + node e 2 + node e 3)
        let ca := (1 / 4 : ℚ) • (node e 1 + node e 2 - node e 0 - node e 3)
        let cb := (1 / 4 : ℚ) • (node e 2 + node e 3 - node e 0 - node e 1)
        some (solve2x2 ca cb (p - c0))
      else none
  | .Hex8 =>
      if (1/8 : ℚ) • (node e 0 + node e 2 + node e 4 + node e 6 -
            node e 1 - node e 3 - node e 5 - node e 7) = 0 ∧
          (1/8 : ℚ) • (node e 0 + node e 1 + node e 6 + node e 7 -
            node e 2 - node e 3 - node e 4 - node e 5) = 0 ∧
          (1/8 : ℚ) • (node e 0 + node e 3 + node e 5 + node e 6 -
            node e 1 - node e 2 - node e 4 - node e 7) = 0 ∧
          (1/8 : ℚ) • (node e 1 + node e 3 + node e 4 + node e 6 -
            node e 0 - node e 2 - node e 5 - node e 7) = 0 then
        let c0 := (1/8 : ℚ) • (node e 0 + node e 1 + node e 2 + node e 3 +
          node e 4 + node e 5 + node e 6 + node e 7)
        let cx := (1/8 : ℚ) • (node e 1 + node e 2 + node e 5 + node e 6 -
          node e 0 - node e 3 - node e 4 - node e 7)
        let cy := (1/8 : ℚ) • (node e 2 + node e 3 + node e 6 + node e 7 -
          node e 0 - node e 1 - node e 4 - node e 5)
        let cz := (1/8 : ℚ) • (node e 4 + node e 5 + node e 6 + node e 7 -
          node e 0 - node e 1 - node e 2 - node e 3)
        some (solve3x3 cx cy cz (p - c0))
      else none
  | _ => none

/-- Modelled from the spec: one Newton step of the Inverse Mapping Solver,
`r - J(r)⁻¹ (forwardMap(r) - physicalPoint)`, with the Jacobian of the
(bi/tri)linear forward map assembled from the element's nodes. -/
def newtonStep (e : Elem) (p : Point) (r : Point) : Point :=
  match e.type with
  | .Quad4 =>
      let ca := (1 / 4 : ℚ) • (node e 1 + node e 2 - node e 0 - node e 3)
      let cb := (1 / 4 : ℚ) • (node e 2 + node e 3 - node e 0 - node e 1)
      let m := (1 / 4 : ℚ) • (node e 0 + node e 2 - node e 1 - node e 3)
      let d := solve2x2 (ca + r.y • m) (cb + r.x • m) (forwardMap e r - p)
      ⟨r.x - d.x, r.y - d.y, 0⟩
  | .Hex8 =>
      let cx := (1 / 8 : ℚ) •
        (node e 1 + node e 2 + node e 5 + node e 6 - node e 0 - node e 3 - node e 4 - node e 7)
      let cy := (1 / 8 : ℚ) •
        (node e 2 + node e 3 + node e 6 + node e 7 - node e 0 - node e 1 - node e 4 - node e 5)
      let cz := (1 / 8 : ℚ) •
        (node e 4 + node e 5 + node e 6 + node e 7 - node e 0 - node e 1 - node e 2 - node e 3)
      let cxy := (1 / 8 : ℚ) •
        (node e 0 + node e 2 + node e 4 + node e 6 - node e 1 - node e 3 - node e 5 - node e 7)
      let cyz := (1 / 8 : ℚ) •
        (node e 0 + node e 1 + node e 6 + node e 7 - node e 2 - node e 3 - node e 4 - node e 5)
      let cxz := (1 / 8 : ℚ) •
        (node e 0 + node e 3 + node e 5 + node e 6 - node e 1 - node e 2 - node e 4 - node e 7)
      let cxyz := (1 / 8 : ℚ) •
        (node e 1 + node e 3 + node e 4 + node e 6 - node e 0 - node e 2 - node e 5 - node e 7)
      let jx := cx + r.y • cxy + r.z • cxz + (r.y * r.z) • cxyz
      let jy := cy + r.x • cxy + r.z • cyz + (r.x * r.z) • cxyz
      let jz := cz + r.y • cyz + r.x • cxz + (r.x * r.y) • cxyz
      r - solve3x3 jx jy jz (forwardMap e r - p)
  | _ => r

/-- Modelled from the spec: the solver's absolute convergence tolerance,
squared ("residual norm below a small absolute tolerance"): `(1e-10)²`. -/
def inverseMapTol2 : ℚ := 1 / 10 ^ 20

/-- Modelled from the spec: "a maximum iteration cap" for the Newton
iteration. -/
def newtonMaxIter : Nat := 10

/-- Modelled from the spec: "geometry-specific centroid of the reference
domain is a reasonable default" starting guess for the Newton iteration. -/
def startGuess : ElemType → Point
  | .Tri3 => ⟨1/3, 1/3, 0⟩
  | .Tet4 => ⟨1/4, 1/4, 1/4⟩
  | _ => 0

/-- Modelled from the spec: the fuel-capped Newton iteration — return the
current iterate as soon as its residual satisfies the convergence criterion;
on exceeding the cap without convergence, fail with
`InverseMapDidNotConverge` "rather than returning a wrong point silently". -/
def newtonLoop (F : Point → Point) (step : Point → Point) :
    Nat → Point → Except FEError Point
  | 0, _ => .error .inverseMapDidNotConverge
  | Nat.succ k, r =>
      if (F r).normSq ≤ inverseMapTol2 then .ok r
      else newtonLoop F step k (step r)

/-- Modelled from the spec: `FEInterface::inverse_map` (body not in the
visible sources) — inverts the element's forward map: affine short-circuit
to an exact linear solve (checked against the same convergence criterion),
otherwise capped Newton iteration from the centroid starting guess. -/
def inverse_map (dim : Nat) (fe_t : FEType) (e : Elem) (p : Point) :
    Except FEError Point :=
  if supportedB dim fe_t e.type then
    match affineSolve e p with
    | some r =>
        if (forwardMap e r - p).normSq ≤ inverseMapTol2 then .ok r
        else .error .inverseMapDidNotConverge
    | none => newtonLoop (fun r => forwardMap e r - p) (newtonStep e p)
        newtonMaxIter (startGuess e.type)
  else .error .unsupportedCombination

/-- Nondegeneracy measure of an element's (affine part of the) map: the
determinant of the linear system the affine short-circuit solves. -/
def elemDet (e : Elem) : ℚ :=
  match e.type with
  | .Edge2 => (node e 1).x - (node e 0).x
  | .Tri3 =>
      let a := node e 1 - node e 0
      let b := node e 2 - node e 0
      a.x * b.y - a.y * b.x
  | .Quad4 =>
      let ca := (1 / 4 : ℚ) • (node e 1 + node e 2 - node e 0 - node e 3)
      let cb := (1 / 4 : ℚ) • (node e 2 + node e 3 - node e 0 - node e 1)
      ca.x * cb.y - ca.y * cb.x
  | .Tet4 =>
      let a := node e 1 - node e 0
      let b := node e 2 - node e 0
      let c := node e 3 - node e 0
      a.x * (b.y * c.z - b.z * c.y) - b.x * (a.y * c.z - a.z * c.y) +
        c.x * (a.y * b.z - a.z * b.y)
  | .Hex8 =>
      let cx := (1/8 : ℚ) • (node e 1 + node e 2 + node e 5 + node e 6 -
        node e 0 - node e 3 - node e 4 - node e 7)
      let cy := (1/8 : ℚ) • (node e 2 + node e 3 + node e 6 + node e 7 -
        node e 0 - node e 1 - node e 4 - node e 5)
      let cz := (1/8 : ℚ) • (node e 4 + node e 5 + node e 6 + node e 7 -
        node e 0 - node e 1 - node e 2 - node e 3)
      cx.x * (cy.y * cz.z - cy.z * cz.y) - cy.x * (cx.y * cz.z - cx.z * cz.y) +
        cz.x * (cx.y * cy.z - cx.z * cy.y)
  | _ => 0

/-- An element whose forward map is affine: simplex-type geometries
unconditionally, a quadrilateral (resp. hexahedron) exactly when its
bilinear (resp. trilinear) cross terms all vanish.  On exactly these
elements the modelled solver takes the exact affine short-circuit. -/
def IsAffineElem (e : Elem) : Prop :=
  match e.type with
  | .Edge2 => True
  | .Tri3 => True
  | .Tet4 => True
  | .Quad4 => (1 / 4 : ℚ) • (node e 0 + node e 2 - node e 1 - node e 3) = 0
  | .Hex8 =>
      (1/8 : ℚ) • (node e 0 + node e 2 + node e 4 + node e 6 -
        node e 1 - node e 3 - node e 5 - node e 7) = 0 ∧
      (1/8 : ℚ) • (node e 0 + node e 1 + node e 6 + node e 7 -
        node e 2 - node e 3 - node e 4 - node e 5) = 0 ∧
      (1/8 : ℚ) • (node e 0 + node e 3 + node e 5 + node e 6 -
        node e 1 - node e 2 - node e 4 - node e 7) = 0 ∧
      (1/8 : ℚ) • (node e 1 + node e 3 + node e 4 + node e 6 -
        node e 0 - node e 2 - node e 5 - node e 7) = 0
  | _ => False

/-- Reference points of a `dim`-dimensional geometry carry zeros in the
unused trailing coordinates. -/
def refCoordsValid (t : ElemType) (r : Point) : Prop :=
  match elemDim t with
  | 1 => r.y = 0 ∧ r.z = 0
  | 2 => r.z = 0
  | _ => True

/-- The full set of descriptors a caller may hold while querying the Router:
dimension, family descriptor, element instance, and the three arguments of
the containment query.  Used to state that containment reads nothing beyond
its own three arguments. -/
structure FEQueryContext where
  dim : Nat
  fe_t : FEType
  elem : Elem
  p : Point
  t : ElemType
  eps : ℚ

/-- The containment query as invoked from a full caller context: the C++
signature passes only the point, the geometry tag and the tolerance. -/
def on_reference_element_call (c : FEQueryContext) : Bool :=
  on_reference_element c.p c.t c.eps

/-- The spec's concrete scenario element: a single affine quadrilateral
with corners (0,0), (1,0), (1,1), (0,1). -/
def unitSquareQuad : Elem :=
  ⟨.Quad4, [⟨0, 0, 0⟩, ⟨1, 0, 0⟩, ⟨1, 1, 0⟩, ⟨0, 1, 0⟩]⟩

/-- A degenerate (zero-area) affine triangle: all three nodes coincide.
Its forward map is constant, so no solver can invert it. -/
def degenTri : Elem :=
  ⟨.Tri3, [⟨0, 0, 0⟩, ⟨0, 0, 0⟩, ⟨0, 0, 0⟩]⟩

/-- A nondegenerate affine hexahedron: the unit cube, nodes in the standard
Hex8 local ordering. -/
def unitCubeHex : Elem :=
  ⟨.Hex8, [⟨0, 0, 0⟩, ⟨1, 0, 0⟩, ⟨1, 1, 0⟩, ⟨0, 1, 0⟩,
    ⟨0, 0, 1⟩, ⟨1, 0, 1⟩, ⟨1, 1, 1⟩, ⟨0, 1, 1⟩]⟩

@[simp] theorem Point.add_x (a b : Point) : (a + b).x = a.x + b.x := rfl

@[simp] theorem Point.add_y (a b : Point) : (a + b).y = a.y + b.y := rfl

@[simp] theorem Point.add_z (a b : Point) : (a + b).z = a.z + b.z := rfl

@[simp] theorem Point.sub_x (a b : Point) : (a - b).x = a.x - b.x := rfl

@[simp] theorem Point.sub_y (a b : Point) : (a - b).y = a.y - b.y := rfl

@[simp] theorem Point.sub_z (a b : Point) : (a - b).z = a.z - b.z := rfl

@[simp] theorem Point.smul_x (q : ℚ) (a : Point) : (q • a).x = q * a.x := rfl

@[simp] theorem Point.smul_y (q : ℚ) (a : Point) : (q • a).y = q * a.y := rfl

@[simp] theorem Point.smul_z (q : ℚ) (a : Point) : (q • a).z = q * a.z := rfl

@[simp] theorem Point.zero_x : (0 : Point).x = 0 := rfl

@[simp] theorem Point.zero_y : (0 : Point).y = 0 := rfl

@[simp] theorem Point.zero_z : (0 : Point).z = 0 := rfl

theorem Point.ext_xyz : ∀ {a b : Point},
    a.x = b.x → a.y = b.y → a.z = b.z → a = b := by
  intro a b hx hy hz
  cases a
  cases b
  cases hx
  cases hy
  cases hz
  rfl

@[simp] theorem shapeVal_Edge2_0 (p : Point) :
    shapeVal .lagrange .Edge2 0 p = (1 - p.x) / 2 := rfl

@[simp] theorem shapeVal_Edge2_1 (p : Point) :
    shapeVal .lagrange .Edge2 1 p = (1 + p.x) / 2 := rfl

@[simp] theorem shapeVal_Tri3_0 (p : Point) :
    shapeVal .lagrange .Tri3 0 p = 1 - p.x - p.y := rfl

@[simp] theorem shapeVal_Tri3_1 (p : Point) :
    shapeVal .lagrange .Tri3 1 p = p.x := rfl

@[simp] theorem shapeVal_Tri3_2 (p : Point) :
    shapeVal .lagrange .Tri3 2 p = p.y := rfl

@[simp] theorem shapeVal_Quad4_0 (p : Point) :
    shapeVal .lagrange .Quad4 0 p = (1 - p.x) * (1 - p.y) / 4 := rfl

@[simp] theorem shapeVal_Quad4_1 (p : Point) :
    shapeVal .lagrange .Quad4 1 p = (1 + p.x) * (1 - p.y) / 4 := rfl

@[simp] theorem shapeVal_Quad4_2 (p : Point) :
    shapeVal .lagrange .Quad4 2 p = (1 + p.x) * (1 + p.y) / 4 := rfl

@[simp] theorem shapeVal_Quad4_3 (p : Point) :
    shapeVal .lagrange .Quad4 3 p = (1 - p.x) * (1 + p.y) / 4 := rfl

@[simp] theorem shapeVal_Tet4_0 (p : Point) :
    shapeVal .lagrange .Tet4 0 p = 1 - p.x - p.y - p.z := rfl

@[simp] theorem shapeVal_Tet4_1 (p : Point) :
    shapeVal .lagrange .Tet4 1 p = p.x := rfl

@[simp] theorem shapeVal_Tet4_2 (p : Point) :
    shapeVal .lagrange .Tet4 2 p = p.y := rfl

@[simp] theorem shapeVal_Tet4_3 (p : Point) :
    shapeVal .lagrange .Tet4 3 p = p.z := rfl

@[simp] theorem shapeVal_Hex8_0 (p : Point) :
    shapeVal .lagrange .Hex8 0 p = (1 - p.x) * (1 - p.y) * (1 - p.z) / 8 :=
  rfl

@[simp] theorem shapeVal_Hex8_1 (p : Point) :
    shapeVal .lagrange .Hex8 1 p = (1 + p.x) * (1 - p.y) * (1 - p.z) / 8 :=
  rfl

@[simp] theorem shapeVal_Hex8_2 (p : Point) :
    shapeVal .lagrange .Hex8 2 p = (1 + p.x) * (1 + p.y) * (1 - p.z) / 8 :=
  rfl

@[simp] theorem shapeVal_Hex8_3 (p : Point) :
    shapeVal .lagrange .Hex8 3 p = (1 - p.x) * (1 + p.y) * (1 - p.z) / 8 :=
  rfl

@[simp] theorem shapeVal_Hex8_4 (p : Point) :
    shapeVal .lagrange .Hex8 4 p = (1 - p.x) * (1 - p.y) * (1 + p.z) / 8 :=
  rfl

@[simp] theorem shapeVal_Hex8_5 (p : Point) :
    shapeVal .lagrange .Hex8 5 p = (1 + p.x) * (1 - p.y) * (1 + p.z) / 8 :=
  rfl

@[simp] theorem shapeVal_Hex8_6 (p : Point) :
    shapeVal .lagrange .Hex8 6 p = (1 + p.x) * (1 + p.y) * (1 + p.z) / 8 :=
  rfl

@[simp] theorem shapeVal_Hex8_7 (p : Point) :
    shapeVal .lagrange .Hex8 7 p = (1 - p.x) * (1 + p.y) * (1 + p.z) / 8 :=
  rfl

theorem tri3_range : List.range (n_nodes ElemType.Tri3) = [0, 1, 2] := rfl

theorem hex8_range :
    List.range (n_nodes ElemType.Hex8) = [0, 1, 2, 3, 4, 5, 6, 7] := rfl

theorem resolveFamily_lagrange (t : ElemType) :
    resolveFamily .lagrange t = .lagrange := by
  by_cases h : specialized .lagrange t <;> simp [resolveFamily, h]

theorem supportedB_parts {dim : Nat} {fe_t : FEType} {t : ElemType}
    (h : supportedB dim fe_t t = true) :
    dim = elemDim t ∧ fe_t.order = 1 ∧
      evalSupported (resolveFamily fe_t.family t) t = true := by
  simp only [supportedB, Bool.and_eq_true, beq_iff_eq] at h
  exact ⟨h.1.1, h.1.2, h.2⟩

theorem newtonLoop_ok_or_fail (F step : Point → Point) :
    ∀ (k : Nat) (r : Point),
      (∃ r', newtonLoop F step k r = .ok r' ∧
        (F r').normSq ≤ inverseMapTol2) ∨
      newtonLoop F step k r = .error .inverseMapDidNotConverge := by
  intro k
  induction k with
  | zero => intro r; right; rfl
  | succ n ih =>
      intro r
      by_cases h : (F r).normSq ≤ inverseMapTol2
      · left; exact ⟨r, by simp [newtonLoop, h], h⟩
      · have hrec : newtonLoop F step (n + 1) r = newtonLoop F step n (step r) := by
          simp [newtonLoop, h]
        rw [hrec]
        exact ih (step r)

/-- C1: for every reference point and tolerance, `on_reference_element`
answers true exactly when the point satisfies the geometry's linear
inequality constraints, each loosened by `eps` in the permissive direction;
at the default tolerance `1e-6` the unit-right-triangle point `(0.5, 0.5)`
on the hypotenuse is inside and `(0.6, 0.6)` is outside. -/
theorem on_reference_element_loosened_constraints :
    (∀ (p : Point) (t : ElemType) (eps : ℚ),
      on_reference_element p t eps = true ↔ inRefDomainLoose t p eps) ∧
    on_reference_element ⟨1/2, 1/2, 0⟩ .Tri3 (1/1000000) = true ∧
    on_reference_element ⟨3/5, 3/5, 0⟩ .Tri3 (1/1000000) = false := by
  refine ⟨fun p t eps => ?_, by norm_num [on_reference_element],
    by norm_num [on_reference_element]⟩
  cases t <;>
    simp [on_reference_element, inRefDomainLoose, Bool.and_eq_true,
      decide_eq_true_iff, and_assoc]

/-- C10: the containment result is a function of the point, the geometry tag
and the tolerance alone — two calls from caller contexts that agree on those
three arguments agree on the result, whatever dimension, family descriptor
or element instance the callers otherwise hold. -/
theorem on_reference_element_depends_only_on_p_t_eps :
    ∀ c₁ c₂ : FEQueryContext, c₁.p = c₂.p → c₁.t = c₂.t → c₁.eps = c₂.eps →
      on_reference_element_call c₁ = on_reference_element_call c₂ := by
  intro c₁ c₂ hp ht heps
  unfold on_reference_element_call
  rw [hp, ht, heps]

theorem on_reference_element_depends_only_on_p_t_eps_witness :
    on_reference_element_call
      ⟨2, ⟨.lagrange, 1⟩, ⟨.Tri3, []⟩, ⟨1/2, 1/2, 0⟩, .Tri3, 1/1000000⟩ =
    on_reference_element_call
      ⟨3, ⟨.hierarchic, 7⟩, ⟨.Hex8, [⟨1, 2, 3⟩]⟩, ⟨1/2, 1/2, 0⟩, .Tri3,
        1/1000000⟩ :=
  on_reference_element_depends_only_on_p_t_eps _ _ rfl rfl rfl

/-- C4: on a supported triple, `shape` succeeds exactly on indices strictly
below `n_shape_functions` and fails with `IndexOutOfRange` on every index at
or above it. -/
theorem shape_succeeds_iff_index_lt_count :
    ∀ (dim : Nat) (fe_t : FEType) (t : ElemType) (i : Nat) (p : Point)
      (N : Nat), n_shape_functions dim fe_t t = .ok N →
      ((i < N → ∃ v, shape dim fe_t t i p = .ok v) ∧
       (N ≤ i → shape dim fe_t t i p = .error .indexOutOfRange)) := by
  intro dim fe_t t i p N h
  by_cases hs : supportedB dim fe_t t = true
  · simp only [n_shape_functions, hs, if_true, Except.ok.injEq] at h
    subst h
    refine ⟨fun hi =>
      ⟨shapeVal (resolveFamily fe_t.family t) t i p, ?_⟩, fun hi => ?_⟩
    · simp [shape, hs, hi]
    · simp [shape, hs, Nat.not_lt.mpr hi]
  · simp [n_shape_functions, hs] at h

theorem shape_succeeds_iff_index_lt_count_witness :
    (∃ v, shape 2 ⟨.lagrange, 1⟩ .Tri3 1 ⟨0, 0, 0⟩ = .ok v) ∧
      shape 2 ⟨.lagrange, 1⟩ .Tri3 5 ⟨0, 0, 0⟩ = .error .indexOutOfRange :=
  ⟨(shape_succeeds_iff_index_lt_count 2 ⟨.lagrange, 1⟩ .Tri3 1 ⟨0, 0, 0⟩ 3
      rfl).1 (by decide),
   (shape_succeeds_iff_index_lt_count 2 ⟨.lagrange, 1⟩ .Tri3 5 ⟨0, 0, 0⟩ 3
      rfl).2 (by decide)⟩

/-- C8: on a supported triple, `n_dofs_at_node` succeeds for every node
index strictly below the geometry's node count and fails with
`IndexOutOfRange` for every node index at or above it (in particular for
the node count itself). -/
theorem n_dofs_at_node_index_range :
    ∀ (dim : Nat) (fe_t : FEType) (t : ElemType) (n : Nat),
      supportedB dim fe_t t = true →
      ((n < n_nodes t → ∃ d, n_dofs_at_node dim fe_t t n = .ok d) ∧
       (n_nodes t ≤ n →
         n_dofs_at_node dim fe_t t n = .error .indexOutOfRange)) := by
  intro dim fe_t t n hs
  refine ⟨fun hn =>
    ⟨dofCountAtNode (resolveFamily fe_t.family t) t n, ?_⟩, fun hn => ?_⟩
  · simp [n_dofs_at_node, hs, hn]
  · simp [n_dofs_at_node, hs, Nat.not_lt.mpr hn]

theorem n_dofs_at_node_index_range_witness :
    (∃ d, n_dofs_at_node 2 ⟨.lagrange, 1⟩ .Tri3 2 = .ok d) ∧
      n_dofs_at_node 2 ⟨.lagrange, 1⟩ .Tri3 3 = .error .indexOutOfRange :=
  ⟨(n_dofs_at_node_index_range 2 ⟨.lagrange, 1⟩ .Tri3 2 rfl).1 (by decide),
   (n_dofs_at_node_index_range 2 ⟨.lagrange, 1⟩ .Tri3 3 rfl).2 (by decide)⟩

/-- C5: on every supported triple, `n_dofs` equals the sum of
`n_dofs_at_node` over all local nodes of the geometry plus
`n_dofs_per_elem` (the interior dofs). -/
theorem n_dofs_eq_sum_at_nodes_add_per_elem :
    ∀ (dim : Nat) (fe_t : FEType) (t : ElemType) (d : Nat),
      n_dofs dim fe_t t = .ok d →
      ∃ s q, sum_n_dofs_at_node dim fe_t t = .ok s ∧
        n_dofs_per_elem dim fe_t t = .ok q ∧ d = s + q := by
  intro dim fe_t t d h
  by_cases hs : supportedB dim fe_t t = true
  case neg => simp [n_dofs, hs] at h
  obtain ⟨fam, ord⟩ := fe_t
  obtain ⟨hdim, hord, -⟩ := supportedB_parts hs
  have hord' : ord = 1 := hord
  subst hdim
  subst hord'
  simp only [n_dofs, hs, if_true, Except.ok.injEq] at h
  subst h
  cases fam <;> cases t <;>
    first
      | exact absurd hs (by decide)
      | exact ⟨_, _, rfl, rfl, rfl⟩

theorem n_dofs_eq_sum_at_nodes_add_per_elem_witness :
    ∃ s q, sum_n_dofs_at_node 2 ⟨.lagrange, 1⟩ .Tri3 = .ok s ∧
      n_dofs_per_elem 2 ⟨.lagrange, 1⟩ .Tri3 = .ok q ∧ 3 = s + q :=
  n_dofs_eq_sum_at_nodes_add_per_elem 2 ⟨.lagrange, 1⟩ .Tri3 3 rfl

/-- C7: on a supported combination, `nodal_soln` fails with `SizeMismatch`
exactly when the element solution vector's length differs from `n_dofs`;
when the lengths agree it returns one value per mesh node of the element. -/
theorem nodal_soln_size_mismatch_iff :
    ∀ (dim : Nat) (fe_t : FEType) (e : Elem) (soln : List ℚ) (d : Nat),
      n_dofs dim fe_t e.type = .ok d →
      ((nodal_soln dim fe_t e soln = .error .sizeMismatch ↔
          soln.length ≠ d) ∧
        (soln.length = d → ∃ out, nodal_soln dim fe_t e soln = .ok out ∧
          out.length = n_nodes e.type)) := by
  intro dim fe_t e soln d h
  by_cases hs : supportedB dim fe_t e.type = true
  case neg => simp [n_dofs, hs] at h
  simp only [n_dofs, hs, if_true, Except.ok.injEq] at h
  subst h
  by_cases hlen :
      soln.length = dofCount (resolveFamily fe_t.family e.type) e.type
  · refine ⟨by simp [nodal_soln, hs, hlen], fun _ =>
      ⟨(List.range (n_nodes e.type)).map (fun j =>
        ((List.range
            (shapeCount (resolveFamily fe_t.family e.type) e.type)).map
          (fun i => soln.getD i 0 *
            shapeVal (resolveFamily fe_t.family e.type) e.type i
              (nodeRefCoord e.type j))).sum), ?_, ?_⟩⟩
    · unfold nodal_soln
      rw [if_pos hs, if_pos hlen]
    · simp
  · exact ⟨by simp [nodal_soln, hs, hlen], fun hc => absurd hc hlen⟩

theorem nodal_soln_size_mismatch_iff_witness :
    (nodal_soln 2 ⟨.lagrange, 1⟩ ⟨.Tri3, []⟩ [1, 2, 3] =
        .error .sizeMismatch ↔ ([1, 2, 3] : List ℚ).length ≠ 3) ∧
      (([1, 2, 3] : List ℚ).length = 3 →
        ∃ out, nodal_soln 2 ⟨.lagrange, 1⟩ ⟨.Tri3, []⟩ [1, 2, 3] = .ok out ∧
          out.length = n_nodes .Tri3) :=
  nodal_soln_size_mismatch_iff 2 ⟨.lagrange, 1⟩ ⟨.Tri3, []⟩ [1, 2, 3] 3 rfl

/-- C3: on every supported combination, the inverse-map solver either
returns a reference point whose (squared) residual norm meets the
convergence tolerance, or fails with `InverseMapDidNotConverge` once the
fixed Newton iteration cap is exhausted — it never returns an unconverged
point. -/
theorem inverse_map_converged_or_did_not_converge :
    ∀ (dim : Nat) (fe_t : FEType) (e : Elem) (p : Point),
      supportedB dim fe_t e.type = true →
      ((∃ r, inverse_map dim fe_t e p = .ok r ∧
          (forwardMap e r - p).normSq ≤ inverseMapTol2) ∨
        inverse_map dim fe_t e p = .error .inverseMapDidNotConverge) := by
  intro dim fe_t e p hs
  cases haff : affineSolve e p with
  | some r =>
      by_cases hc : (forwardMap e r - p).normSq ≤ inverseMapTol2
      · exact Or.inl ⟨r, by simp [inverse_map, hs, haff, hc], hc⟩
      · exact Or.inr (by simp [inverse_map, hs, haff, hc])
  | none =>
      have heq : inverse_map dim fe_t e p =
          newtonLoop (fun r => forwardMap e r - p) (newtonStep e p)
            newtonMaxIter (startGuess e.type) := by
        simp [inverse_map, hs, haff]
      rw [heq]
      exact newtonLoop_ok_or_fail _ _ newtonMaxIter (startGuess e.type)

theorem inverse_map_converged_or_did_not_converge_witness :
    (∃ r, inverse_map 2 ⟨.lagrange, 1⟩
        ⟨.Tri3, [⟨0, 0, 0⟩, ⟨1, 0, 0⟩, ⟨0, 1, 0⟩]⟩ ⟨1/3, 1/3, 0⟩ = .ok r ∧
        (forwardMap ⟨.Tri3, [⟨0, 0, 0⟩, ⟨1, 0, 0⟩, ⟨0, 1, 0⟩]⟩ r -
          ⟨1/3, 1/3, 0⟩).normSq ≤ inverseMapTol2) ∨
      inverse_map 2 ⟨.lagrange, 1⟩
        ⟨.Tri3, [⟨0, 0, 0⟩, ⟨1, 0, 0⟩, ⟨0, 1, 0⟩]⟩ ⟨1/3, 1/3, 0⟩ =
          .error .inverseMapDidNotConverge :=
  inverse_map_converged_or_did_not_converge 2 ⟨.lagrange, 1⟩
    ⟨.Tri3, [⟨0, 0, 0⟩, ⟨1, 0, 0⟩, ⟨0, 1, 0⟩]⟩ ⟨1/3, 1/3, 0⟩ rfl

/-- C6: a family with no specialized evaluator on a geometry that the
default (FEBase/Lagrange) family supports dispatches to exactly the default
family's shape values on that geometry, and the fallback succeeds on every
valid index. -/
theorem shape_fallback_default_family :
    ∀ (dim : Nat) (fam : FEFamily) (ord : Nat) (t : ElemType) (i : Nat)
      (p : Point), specialized fam t = false →
      supportedB dim ⟨.lagrange, ord⟩ t = true →
      i < shapeCount .lagrange t →
      (shape dim ⟨fam, ord⟩ t i p = shape dim ⟨.lagrange, ord⟩ t i p ∧
        ∃ v, shape dim ⟨fam, ord⟩ t i p = .ok v) := by
  intro dim fam ord t i p hns hsup hi
  have h1 : resolveFamily fam t = .lagrange := by simp [resolveFamily, hns]
  have h2 : resolveFamily .lagrange t = .lagrange := resolveFamily_lagrange t
  have hsup' : supportedB dim ⟨fam, ord⟩ t = true := by
    simp only [supportedB, h1] at hsup ⊢
    simpa only [h2] using hsup
  refine ⟨by simp only [shape, supportedB, h1, h2], shapeVal .lagrange t i p,
    ?_⟩
  simp [shape, hsup', h1, hi]

theorem shape_fallback_default_family_witness :
    shape 2 ⟨.hierarchic, 1⟩ .Quad4 2 ⟨1/3, 1/4, 0⟩ =
        shape 2 ⟨.lagrange, 1⟩ .Quad4 2 ⟨1/3, 1/4, 0⟩ ∧
      ∃ v, shape 2 ⟨.hierarchic, 1⟩ .Quad4 2 ⟨1/3, 1/4, 0⟩ = .ok v :=
  shape_fallback_default_family 2 .hierarchic 1 .Quad4 2 ⟨1/3, 1/4, 0⟩ rfl
    rfl (by decide)

theorem solve2x2_recover (a b : Point) (rx ry w : ℚ)
    (hdet : a.x * b.y - a.y * b.x ≠ 0) :
    solve2x2 a b ⟨rx * a.x + ry * b.x, rx * a.y + ry * b.y, w⟩ =
      ⟨rx, ry, 0⟩ := by
  simp only [solve2x2, Point.mk.injEq, eq_self_iff_true, and_true]
  constructor <;> (rw [div_eq_iff hdet]; ring)

theorem solve3x3_recover (a b c : Point) (rx ry rz : ℚ)
    (hdet : a.x * (b.y * c.z - b.z * c.y) - b.x * (a.y * c.z - a.z * c.y) +
      c.x * (a.y * b.z - a.z * b.y) ≠ 0) :
    solve3x3 a b c ⟨rx * a.x + ry * b.x + rz * c.x,
      rx * a.y + ry * b.y + rz * c.y, rx * a.z + ry * b.z + rz * c.z⟩ =
      ⟨rx, ry, rz⟩ := by
  simp only [solve3x3, Point.mk.injEq]
  refine ⟨?_, ?_, ?_⟩ <;> (rw [div_eq_iff hdet]; ring)

theorem Point.normSq_sub_self (q : Point) : (q - q).normSq = 0 := by
  simp [Point.normSq]

theorem inverse_map_of_affineSolve (dim : Nat) (fe_t : FEType) (e : Elem)
    (p r : Point) (hs : supportedB dim fe_t e.type = true)
    (hsol : affineSolve e p = some r) (hres : forwardMap e r = p) :
    inverse_map dim fe_t e p = .ok r := by
  have h0 : (forwardMap e r - p).normSq ≤ inverseMapTol2 := by
    rw [hres, Point.normSq_sub_self]
    norm_num [inverseMapTol2]
  simp [inverse_map, hs, hsol, h0]

theorem usq_node0 : node unitSquareQuad 0 = ⟨0, 0, 0⟩ := rfl

theorem usq_node1 : node unitSquareQuad 1 = ⟨1, 0, 0⟩ := rfl

theorem usq_node2 : node unitSquareQuad 2 = ⟨1, 1, 0⟩ := rfl

theorem usq_node3 : node unitSquareQuad 3 = ⟨0, 1, 0⟩ := rfl

theorem usq_type : unitSquareQuad.type = ElemType.Quad4 := rfl

theorem quad4_range : List.range (n_nodes ElemType.Quad4) = [0, 1, 2, 3] :=
  rfl

theorem usq_forwardMap_center :
    forwardMap unitSquareQuad ⟨0, 0, 0⟩ = ⟨1/2, 1/2, 0⟩ := by
  refine Point.ext_xyz ?_ ?_ ?_ <;>
    (simp [forwardMap, usq_type, quad4_range, usq_node0, usq_node1,
      usq_node2, usq_node3]
     try norm_num)

theorem usq_affine :
    (1/4 : ℚ) • (node unitSquareQuad 0 + node unitSquareQuad 2 -
      node unitSquareQuad 1 - node unitSquareQuad 3) = 0 := by
  rw [usq_node0, usq_node1, usq_node2, usq_node3]
  refine Point.ext_xyz ?_ ?_ ?_ <;> (simp; try norm_num)

theorem uch_node0 : node unitCubeHex 0 = ⟨0, 0, 0⟩ := rfl

theorem uch_node1 : node unitCubeHex 1 = ⟨1, 0, 0⟩ := rfl

theorem uch_node2 : node unitCubeHex 2 = ⟨1, 1, 0⟩ := rfl

theorem uch_node3 : node unitCubeHex 3 = ⟨0, 1, 0⟩ := rfl

theorem uch_node4 : node unitCubeHex 4 = ⟨0, 0, 1⟩ := rfl

theorem uch_node5 : node unitCubeHex 5 = ⟨1, 0, 1⟩ := rfl

theorem uch_node6 : node unitCubeHex 6 = ⟨1, 1, 1⟩ := rfl

theorem uch_node7 : node unitCubeHex 7 = ⟨0, 1, 1⟩ := rfl

theorem uch_type : unitCubeHex.type = ElemType.Hex8 := rfl

theorem uch_affine : IsAffineElem unitCubeHex := by
  refine ⟨?_, ?_, ?_, ?_⟩ <;>
    (rw [uch_node0, uch_node1, uch_node2, uch_node3, uch_node4, uch_node5,
       uch_node6, uch_node7]
     refine Point.ext_xyz ?_ ?_ ?_ <;> (simp; try norm_num))

theorem uch_det : elemDet unitCubeHex = 1/8 := by
  simp [elemDet, uch_type, uch_node0, uch_node1, uch_node2, uch_node3,
    uch_node4, uch_node5, uch_node6, uch_node7]
  norm_num

theorem degen_node0 : node degenTri 0 = ⟨0, 0, 0⟩ := rfl

theorem degen_node1 : node degenTri 1 = ⟨0, 0, 0⟩ := rfl

theorem degen_node2 : node degenTri 2 = ⟨0, 0, 0⟩ := rfl

theorem degen_type : degenTri.type = ElemType.Tri3 := rfl

theorem degen_forwardMap (r : Point) : forwardMap degenTri r = ⟨0, 0, 0⟩ := by
  refine Point.ext_xyz ?_ ?_ ?_ <;>
    (simp [forwardMap, degen_type, tri3_range, degen_node0, degen_node1,
       degen_node2]
     try norm_num)

/-- C2 (amended): for every supported nondegenerate affine element — the
always-affine simplex-type geometries and the quadrilaterals and hexahedra
whose cross terms vanish — and every valid reference point `r`,
`inverse_map` applied to the forward image of `r` returns exactly `r`; for
the unit-square quadrilateral the physical center (0.5, 0.5) comes back as
the canonical reference midpoint (0, 0) of the [-1,1]² reference square
(see the witness, which also exercises a nondegenerate affine
hexahedron), not as (0.5, 0.5). -/
theorem inverse_map_affine_round_trip :
    ∀ (dim : Nat) (fe_t : FEType) (e : Elem) (r : Point),
      supportedB dim fe_t e.type = true → IsAffineElem e →
      elemDet e ≠ 0 → refCoordsValid e.type r →
      inverse_map dim fe_t e (forwardMap e r) = .ok r := by
  intro dim fe_t e r hs haff hdet hz
  refine inverse_map_of_affineSolve dim fe_t e _ r hs ?_ rfl
  obtain ⟨t, nodes⟩ := e
  obtain ⟨rx, ry, rz⟩ := r
  cases t with
  | Edge2 =>
      obtain ⟨hy0, hz0⟩ : ry = 0 ∧ rz = 0 := hz
      subst hy0
      subst hz0
      have hd : (node ⟨.Edge2, nodes⟩ 1).x - (node ⟨.Edge2, nodes⟩ 0).x ≠ 0 :=
        hdet
      have hrange : List.range (n_nodes ElemType.Edge2) = [0, 1] := rfl
      simp only [affineSolve, Option.some.injEq, Point.mk.injEq,
        eq_self_iff_true, and_true]
      simp [forwardMap, hrange]
      rw [div_eq_iff (by intro h; exact hd (by linarith))]
      ring
  | Tri3 =>
      have hz0 : rz = 0 := hz
      subst hz0
      have hd : (node ⟨.Tri3, nodes⟩ 1 - node ⟨.Tri3, nodes⟩ 0).x *
            (node ⟨.Tri3, nodes⟩ 2 - node ⟨.Tri3, nodes⟩ 0).y -
          (node ⟨.Tri3, nodes⟩ 1 - node ⟨.Tri3, nodes⟩ 0).y *
            (node ⟨.Tri3, nodes⟩ 2 - node ⟨.Tri3, nodes⟩ 0).x ≠ 0 := hdet
      simp only [affineSolve, Option.some.injEq]
      have hr : forwardMap ⟨.Tri3, nodes⟩ ⟨rx, ry, 0⟩ -
          node ⟨.Tri3, nodes⟩ 0 =
          ⟨rx * (node ⟨.Tri3, nodes⟩ 1 - node ⟨.Tri3, nodes⟩ 0).x +
              ry * (node ⟨.Tri3, nodes⟩ 2 - node ⟨.Tri3, nodes⟩ 0).x,
            rx * (node ⟨.Tri3, nodes⟩ 1 - node ⟨.Tri3, nodes⟩ 0).y +
              ry * (node ⟨.Tri3, nodes⟩ 2 - node ⟨.Tri3, nodes⟩ 0).y,
            (forwardMap ⟨.Tri3, nodes⟩ ⟨rx, ry, 0⟩ -
              node ⟨.Tri3, nodes⟩ 0).z⟩ := by
        have hrange : List.range (n_nodes ElemType.Tri3) = [0, 1, 2] := rfl
        refine Point.ext_xyz ?_ ?_ rfl <;>
          (simp [forwardMap, hrange]
           try ring)
      rw [hr]
      exact solve2x2_recover _ _ rx ry _ hd
  | Quad4 =>
      have hz0 : rz = 0 := hz
      subst hz0
      have hm : (1/4 : ℚ) • (node ⟨.Quad4, nodes⟩ 0 + node ⟨.Quad4, nodes⟩ 2 -
          node ⟨.Quad4, nodes⟩ 1 - node ⟨.Quad4, nodes⟩ 3) = 0 := haff
      have hmx : (1/4 : ℚ) * ((node ⟨.Quad4, nodes⟩ 0).x +
          (node ⟨.Quad4, nodes⟩ 2).x - (node ⟨.Quad4, nodes⟩ 1).x -
          (node ⟨.Quad4, nodes⟩ 3).x) = 0 := by
        simpa using congrArg Point.x hm
      have hmy : (1/4 : ℚ) * ((node ⟨.Quad4, nodes⟩ 0).y +
          (node ⟨.Quad4, nodes⟩ 2).y - (node ⟨.Quad4, nodes⟩ 1).y -
          (node ⟨.Quad4, nodes⟩ 3).y) = 0 := by
        simpa using congrArg Point.y hm
      have hd : ((1/4 : ℚ) • (node ⟨.Quad4, nodes⟩ 1 + node ⟨.Quad4, nodes⟩ 2 -
              node ⟨.Quad4, nodes⟩ 0 - node ⟨.Quad4, nodes⟩ 3)).x *
            ((1/4 : ℚ) • (node ⟨.Quad4, nodes⟩ 2 + node ⟨.Quad4, nodes⟩ 3 -
              node ⟨.Quad4, nodes⟩ 0 - node ⟨.Quad4, nodes⟩ 1)).y -
          ((1/4 : ℚ) • (node ⟨.Quad4, nodes⟩ 1 + node ⟨.Quad4, nodes⟩ 2 -
              node ⟨.Quad4, nodes⟩ 0 - node ⟨.Quad4, nodes⟩ 3)).y *
            ((1/4 : ℚ) • (node ⟨.Quad4, nodes⟩ 2 + node ⟨.Quad4, nodes⟩ 3 -
              node ⟨.Quad4, nodes⟩ 0 - node ⟨.Quad4, nodes⟩ 1)).x ≠ 0 := hdet
      simp only [affineSolve]
      rw [if_pos hm]
      simp only [Option.some.injEq]
      have hr : forwardMap ⟨.Quad4, nodes⟩ ⟨rx, ry, 0⟩ -
          (1/4 : ℚ) • (node ⟨.Quad4, nodes⟩ 0 + node ⟨.Quad4, nodes⟩ 1 +
            node ⟨.Quad4, nodes⟩ 2 + node ⟨.Quad4, nodes⟩ 3) =
          ⟨rx * ((1/4 : ℚ) • (node ⟨.Quad4, nodes⟩ 1 + node ⟨.Quad4, nodes⟩ 2 -
              node ⟨.Quad4, nodes⟩ 0 - node ⟨.Quad4, nodes⟩ 3)).x +
            ry * ((1/4 : ℚ) • (node ⟨.Quad4, nodes⟩ 2 + node ⟨.Quad4, nodes⟩ 3 -
              node ⟨.Quad4, nodes⟩ 0 - node ⟨.Quad4, nodes⟩ 1)).x,
           rx * ((1/4 : ℚ) • (node ⟨.Quad4, nodes⟩ 1 + node ⟨.Quad4, nodes⟩ 2 -
              node ⟨.Quad4, nodes⟩ 0 - node ⟨.Quad4, nodes⟩ 3)).y +
            ry * ((1/4 : ℚ) • (node ⟨.Quad4, nodes⟩ 2 + node ⟨.Quad4, nodes⟩ 3 -
              node ⟨.Quad4, nodes⟩ 0 - node ⟨.Quad4, nodes⟩ 1)).y,
           (forwardMap ⟨.Quad4, nodes⟩ ⟨rx, ry, 0⟩ -
            (1/4 : ℚ) • (node ⟨.Quad4, nodes⟩ 0 + node ⟨.Quad4, nodes⟩ 1 +
              node ⟨.Quad4, nodes⟩ 2 + node ⟨.Quad4, nodes⟩ 3)).z⟩ := by
        refine Point.ext_xyz ?_ ?_ rfl
        · simp [forwardMap, quad4_range]
          linear_combination (rx * ry) * hmx
        · simp [forwardMap, quad4_range]
          linear_combination (rx * ry) * hmy
      rw [hr]
      exact solve2x2_recover _ _ rx ry _ hd
  | Tet4 =>
      have hd : (node ⟨.Tet4, nodes⟩ 1 - node ⟨.Tet4, nodes⟩ 0).x *
            ((node ⟨.Tet4, nodes⟩ 2 - node ⟨.Tet4, nodes⟩ 0).y *
              (node ⟨.Tet4, nodes⟩ 3 - node ⟨.Tet4, nodes⟩ 0).z -
             (node ⟨.Tet4, nodes⟩ 2 - node ⟨.Tet4, nodes⟩ 0).z *
              (node ⟨.Tet4, nodes⟩ 3 - node ⟨.Tet4, nodes⟩ 0).y) -
          (node ⟨.Tet4, nodes⟩ 2 - node ⟨.Tet4, nodes⟩ 0).x *
            ((node ⟨.Tet4, nodes⟩ 1 - node ⟨.Tet4, nodes⟩ 0).y *
              (node ⟨.Tet4, nodes⟩ 3 - node ⟨.Tet4, nodes⟩ 0).z -
             (node ⟨.Tet4, nodes⟩ 1 - node ⟨.Tet4, nodes⟩ 0).z *
              (node ⟨.Tet4, nodes⟩ 3 - node ⟨.Tet4, nodes⟩ 0).y) +
          (node ⟨.Tet4, nodes⟩ 3 - node ⟨.Tet4, nodes⟩ 0).x *
            ((node ⟨.Tet4, nodes⟩ 1 - node ⟨.Tet4, nodes⟩ 0).y *
              (node ⟨.Tet4, nodes⟩ 2 - node ⟨.Tet4, nodes⟩ 0).z -
             (node ⟨.Tet4, nodes⟩ 1 - node ⟨.Tet4, nodes⟩ 0).z *
              (node ⟨.Tet4, nodes⟩ 2 - node ⟨.Tet4, nodes⟩ 0).y) ≠ 0 := hdet
      simp only [affineSolve, Option.some.injEq]
      have hr : forwardMap ⟨.Tet4, nodes⟩ ⟨rx, ry, rz⟩ -
          node ⟨.Tet4, nodes⟩ 0 =
          ⟨rx * (node ⟨.Tet4, nodes⟩ 1 - node ⟨.Tet4, nodes⟩ 0).x +
              ry * (node ⟨.Tet4, nodes⟩ 2 - node ⟨.Tet4, nodes⟩ 0).x +
              rz * (node ⟨.Tet4, nodes⟩ 3 - node ⟨.Tet4, nodes⟩ 0).x,
            rx * (node ⟨.Tet4, nodes⟩ 1 - node ⟨.Tet4, nodes⟩ 0).y +
              ry * (node ⟨.Tet4, nodes⟩ 2 - node ⟨.Tet4, nodes⟩ 0).y +
              rz * (node ⟨.Tet4, nodes⟩ 3 - node ⟨.Tet4, nodes⟩ 0).y,
            rx * (node ⟨.Tet4, nodes⟩ 1 - node ⟨.Tet4, nodes⟩ 0).z +
              ry * (node ⟨.Tet4, nodes⟩ 2 - node ⟨.Tet4, nodes⟩ 0).z +
              rz * (node ⟨.Tet4, nodes⟩ 3 - node ⟨.Tet4, nodes⟩ 0).z⟩ := by
        have hrange : List.range (n_nodes ElemType.Tet4) = [0, 1, 2, 3] := rfl
        refine Point.ext_xyz ?_ ?_ ?_ <;>
          (simp [forwardMap, hrange]
           try ring)
      rw [hr]
      exact solve3x3_recover _ _ _ rx ry rz hd
  | Hex8 =>
      obtain ⟨hxy, hyz, hxz, hxyz⟩ := haff
      have hxy_x : (1/8 : ℚ) * ((node ⟨.Hex8, nodes⟩ 0).x +
          (node ⟨.Hex8, nodes⟩ 2).x + (node ⟨.Hex8, nodes⟩ 4).x +
          (node ⟨.Hex8, nodes⟩ 6).x - (node ⟨.Hex8, nodes⟩ 1).x -
          (node ⟨.Hex8, nodes⟩ 3).x - (node ⟨.Hex8, nodes⟩ 5).x -
          (node ⟨.Hex8, nodes⟩ 7).x) = 0 := by
        simpa using congrArg Point.x hxy
      have hxy_y : (1/8 : ℚ) * ((node ⟨.Hex8, nodes⟩ 0).y +
          (node ⟨.Hex8, nodes⟩ 2).y + (node ⟨.Hex8, nodes⟩ 4).y +
          (node ⟨.Hex8, nodes⟩ 6).y - (node ⟨.Hex8, nodes⟩ 1).y -
          (node ⟨.Hex8, nodes⟩ 3).y - (node ⟨.Hex8, nodes⟩ 5).y -
          (node ⟨.Hex8, nodes⟩ 7).y) = 0 := by
        simpa using congrArg Point.y hxy
      have hxy_z : (1/8 : ℚ) * ((node ⟨.Hex8, nodes⟩ 0).z +
          (node ⟨.Hex8, nodes⟩ 2).z + (node ⟨.Hex8, nodes⟩ 4).z +
          (node ⟨.Hex8, nodes⟩ 6).z - (node ⟨.Hex8, nodes⟩ 1).z -
          (node ⟨.Hex8, nodes⟩ 3).z - (node ⟨.Hex8, nodes⟩ 5).z -
          (node ⟨.Hex8, nodes⟩ 7).z) = 0 := by
        simpa using congrArg Point.z hxy
      have hyz_x : (1/8 : ℚ) * ((node ⟨.Hex8, nodes⟩ 0).x +
          (node ⟨.Hex8, nodes⟩ 1).x + (node ⟨.Hex8, nodes⟩ 6).x +
          (node ⟨.Hex8, nodes⟩ 7).x - (node ⟨.Hex8, nodes⟩ 2).x -
          (node ⟨.Hex8, nodes⟩ 3).x - (node ⟨.Hex8, nodes⟩ 4).x -
          (node ⟨.Hex8, nodes⟩ 5).x) = 0 := by
        simpa using congrArg Point.x hyz
      have hyz_y : (1/8 : ℚ) * ((node ⟨.Hex8, nodes⟩ 0).y +
          (node ⟨.Hex8, nodes⟩ 1).y + (node ⟨.Hex8, nodes⟩ 6).y +
          (node ⟨.Hex8, nodes⟩ 7).y - (node ⟨.Hex8, nodes⟩ 2).y -
          (node ⟨.Hex8, nodes⟩ 3).y - (node ⟨.Hex8, nodes⟩ 4).y -
          (node ⟨.Hex8, nodes⟩ 5).y) = 0 := by
        simpa using congrArg Point.y hyz
      have hyz_z : (1/8 : ℚ) * ((node ⟨.Hex8, nodes⟩ 0).z +
          (node ⟨.Hex8, nodes⟩ 1).z + (node ⟨.Hex8, nodes⟩ 6).z +
          (node ⟨.Hex8, nodes⟩ 7).z - (node ⟨.Hex8, nodes⟩ 2).z -
          (node ⟨.Hex8, nodes⟩ 3).z - (node ⟨.Hex8, nodes⟩ 4).z -
          (node ⟨.Hex8, nodes⟩ 5).z) = 0 := by
        simpa using congrArg Point.z hyz
      have hxz_x : (1/8 : ℚ) * ((node ⟨.Hex8, nodes⟩ 0).x +
          (node ⟨.Hex8, nodes⟩ 3).x + (node ⟨.Hex8, nodes⟩ 5).x +
          (node ⟨.Hex8, nodes⟩ 6).x - (node ⟨.Hex8, nodes⟩ 1).x -
          (node ⟨.Hex8, nodes⟩ 2).x - (node ⟨.Hex8, nodes⟩ 4).x -
          (node ⟨.Hex8, nodes⟩ 7).x) = 0 := by
        simpa using congrArg Point.x hxz
      have hxz_y : (1/8 : ℚ) * ((node ⟨.Hex8, nodes⟩ 0).y +
          (node ⟨.Hex8, nodes⟩ 3).y + (node ⟨.Hex8, nodes⟩ 5).y +
          (node ⟨.Hex8, nodes⟩ 6).y - (node ⟨.Hex8, nodes⟩ 1).y -
          (node ⟨.Hex8, nodes⟩ 2).y - (node ⟨.Hex8, nodes⟩ 4).y -
          (node ⟨.Hex8, nodes⟩ 7).y) = 0 := by
        simpa using congrArg Point.y hxz
      have hxz_z : (1/8 : ℚ) * ((node ⟨.Hex8, nodes⟩ 0).z +
          (node ⟨.Hex8, nodes⟩ 3).z + (node ⟨.Hex8, nodes⟩ 5).z +
          (node ⟨.Hex8, nodes⟩ 6).z - (node ⟨.Hex8, nodes⟩ 1).z -
          (node ⟨.Hex8, nodes⟩ 2).z - (node ⟨.Hex8, nodes⟩ 4).z -
          (node ⟨.Hex8, nodes⟩ 7).z) = 0 := by
        simpa using congrArg Point.z hxz
      have hxyz_x : (1/8 : ℚ) * ((node ⟨.Hex8, nodes⟩ 1).x +
          (node ⟨.Hex8, nodes⟩ 3).x + (node ⟨.Hex8, nodes⟩ 4).x +
          (node ⟨.Hex8, nodes⟩ 6).x - (node ⟨.Hex8, nodes⟩ 0).x -
          (node ⟨.Hex8, nodes⟩ 2).x - (node ⟨.Hex8, nodes⟩ 5).x -
          (node ⟨.Hex8, nodes⟩ 7).x) = 0 := by
        simpa using congrArg Point.x hxyz
      have hxyz_y : (1/8 : ℚ) * ((node ⟨.Hex8, nodes⟩ 1).y +
          (node ⟨.Hex8, nodes⟩ 3).y + (node ⟨.Hex8, nodes⟩ 4).y +
          (node ⟨.Hex8, nodes⟩ 6).y - (node ⟨.Hex8, nodes⟩ 0).y -
          (node ⟨.Hex8, nodes⟩ 2).y - (node ⟨.Hex8, nodes⟩ 5).y -
          (node ⟨.Hex8, nodes⟩ 7).y) = 0 := by
        simpa using congrArg Point.y hxyz
      have hxyz_z : (1/8 : ℚ) * ((node ⟨.Hex8, nodes⟩ 1).z +
          (node ⟨.Hex8, nodes⟩ 3).z + (node ⟨.Hex8, nodes⟩ 4).z +
          (node ⟨.Hex8, nodes⟩ 6).z - (node ⟨.Hex8, nodes⟩ 0).z -
          (node ⟨.Hex8, nodes⟩ 2).z - (node ⟨.Hex8, nodes⟩ 5).z -
          (node ⟨.Hex8, nodes⟩ 7).z) = 0 := by
        simpa using congrArg Point.z hxyz
      simp only [affineSolve]
      rw [if_pos (And.intro hxy (And.intro hyz (And.intro hxz hxyz)))]
      simp only [Option.some.injEq]
      have hr : forwardMap ⟨.Hex8, nodes⟩ ⟨rx, ry, rz⟩ -
          (1/8 : ℚ) • (node ⟨.Hex8, nodes⟩ 0 + node ⟨.Hex8, nodes⟩ 1 +
            node ⟨.Hex8, nodes⟩ 2 + node ⟨.Hex8, nodes⟩ 3 +
            node ⟨.Hex8, nodes⟩ 4 + node ⟨.Hex8, nodes⟩ 5 +
            node ⟨.Hex8, nodes⟩ 6 + node ⟨.Hex8, nodes⟩ 7) =
          ⟨rx * ((1/8 : ℚ) • (node ⟨.Hex8, nodes⟩ 1 + node ⟨.Hex8, nodes⟩ 2 +
              node ⟨.Hex8, nodes⟩ 5 + node ⟨.Hex8, nodes⟩ 6 -
              node ⟨.Hex8, nodes⟩ 0 - node ⟨.Hex8, nodes⟩ 3 -
              node ⟨.Hex8, nodes⟩ 4 - node ⟨.Hex8, nodes⟩ 7)).x +
            ry * ((1/8 : ℚ) • (node ⟨.Hex8, nodes⟩ 2 + node ⟨.Hex8, nodes⟩ 3 +
              node ⟨.Hex8, nodes⟩ 6 + node ⟨.Hex8, nodes⟩ 7 -
              node ⟨.Hex8, nodes⟩ 0 - node ⟨.Hex8, nodes⟩ 1 -
              node ⟨.Hex8, nodes⟩ 4 - node ⟨.Hex8, nodes⟩ 5)).x +
            rz * ((1/8 : ℚ) • (node ⟨.Hex8, nodes⟩ 4 + node ⟨.Hex8, nodes⟩ 5 +
              node ⟨.Hex8, nodes⟩ 6 + node ⟨.Hex8, nodes⟩ 7 -
              node ⟨.Hex8, nodes⟩ 0 - node ⟨.Hex8, nodes⟩ 1 -
              node ⟨.Hex8, nodes⟩ 2 - node ⟨.Hex8, nodes⟩ 3)).x,
           rx * ((1/8 : ℚ) • (node ⟨.Hex8, nodes⟩ 1 + node ⟨.Hex8, nodes⟩ 2 +
              node ⟨.Hex8, nodes⟩ 5 + node ⟨.Hex8, nodes⟩ 6 -
              node ⟨.Hex8, nodes⟩ 0 - node ⟨.Hex8, nodes⟩ 3 -
              node ⟨.Hex8, nodes⟩ 4 - node ⟨.Hex8, nodes⟩ 7)).y +
            ry * ((1/8 : ℚ) • (node ⟨.Hex8, nodes⟩ 2 + node ⟨.Hex8, nodes⟩ 3 +
              node ⟨.Hex8, nodes⟩ 6 + node ⟨.Hex8, nodes⟩ 7 -
              node ⟨.Hex8, nodes⟩ 0 - node ⟨.Hex8, nodes⟩ 1 -
              node ⟨.Hex8, nodes⟩ 4 - node ⟨.Hex8, nodes⟩ 5)).y +
            rz * ((1/8 : ℚ) • (node ⟨.Hex8, nodes⟩ 4 + node ⟨.Hex8, nodes⟩ 5 +
              node ⟨.Hex8, nodes⟩ 6 + node ⟨.Hex8, nodes⟩ 7 -
              node ⟨.Hex8, nodes⟩ 0 - node ⟨.Hex8, nodes⟩ 1 -
              node ⟨.Hex8, nodes⟩ 2 - node ⟨.Hex8, nodes⟩ 3)).y,
           rx * ((1/8 : ℚ) • (node ⟨.Hex8, nodes⟩ 1 + node ⟨.Hex8, nodes⟩ 2 +
              node ⟨.Hex8, nodes⟩ 5 + node ⟨.Hex8, nodes⟩ 6 -
              node ⟨.Hex8, nodes⟩ 0 - node ⟨.Hex8, nodes⟩ 3 -
              node ⟨.Hex8, nodes⟩ 4 - node ⟨.Hex8, nodes⟩ 7)).z +
            ry * ((1/8 : ℚ) • (node ⟨.Hex8, nodes⟩ 2 + node ⟨.Hex8, nodes⟩ 3 +
              node ⟨.Hex8, nodes⟩ 6 + node ⟨.Hex8, nodes⟩ 7 -
              node ⟨.Hex8, nodes⟩ 0 - node ⟨.Hex8, nodes⟩ 1 -
              node ⟨.Hex8, nodes⟩ 4 - node ⟨.Hex8, nodes⟩ 5)).z +
            rz * ((1/8 : ℚ) • (node ⟨.Hex8, nodes⟩ 4 + node ⟨.Hex8, nodes⟩ 5 +
              node ⟨.Hex8, nodes⟩ 6 + node ⟨.Hex8, nodes⟩ 7 -
              node ⟨.Hex8, nodes⟩ 0 - node ⟨.Hex8, nodes⟩ 1 -
              node ⟨.Hex8, nodes⟩ 2 - node ⟨.Hex8, nodes⟩ 3)).z⟩ := by
        refine Point.ext_xyz ?_ ?_ ?_
        · simp [forwardMap, hex8_range]
          linear_combination (rx * ry) * hxy_x + (ry * rz) * hyz_x +
            (rx * rz) * hxz_x + (rx * ry * rz) * hxyz_x
        · simp [forwardMap, hex8_range]
          linear_combination (rx * ry) * hxy_y + (ry * rz) * hyz_y +
            (rx * rz) * hxz_y + (rx * ry * rz) * hxyz_y
        · simp [forwardMap, hex8_range]
          linear_combination (rx * ry) * hxy_z + (ry * rz) * hyz_z +
            (rx * rz) * hxz_z + (rx * ry * rz) * hxyz_z
      rw [hr]
      exact solve3x3_recover _ _ _ rx ry rz hdet
  | Prism6 => exact haff.elim
  | Pyramid5 => exact haff.elim

theorem inverse_map_affine_round_trip_witness :
    inverse_map 2 ⟨.lagrange, 1⟩ unitSquareQuad
      (forwardMap unitSquareQuad ⟨0, 0, 0⟩) = .ok ⟨0, 0, 0⟩ ∧
    inverse_map 3 ⟨.lagrange, 1⟩ unitCubeHex
      (forwardMap unitCubeHex ⟨1/4, 1/3, 1/2⟩) = .ok ⟨1/4, 1/3, 1/2⟩ :=
  ⟨inverse_map_affine_round_trip 2 ⟨.lagrange, 1⟩ unitSquareQuad ⟨0, 0, 0⟩
    rfl usq_affine
    (by
      have h : elemDet unitSquareQuad = 1/4 := by
        simp [elemDet, usq_type, usq_node0, usq_node1, usq_node2, usq_node3]
        norm_num
      rw [h]
      norm_num)
    rfl,
   inverse_map_affine_round_trip 3 ⟨.lagrange, 1⟩ unitCubeHex ⟨1/4, 1/3, 1/2⟩
    rfl uch_affine (by rw [uch_det]; norm_num) (by trivial)⟩

/-- C2 (counterexample to the claim as stated): two parts.  First, for the
unit-square affine quadrilateral with corners (0,0), (1,0), (1,1), (0,1),
`inverse_map` of the physical point (0.5, 0.5) returns the reference point
(0, 0) — the canonical midpoint of the [-1,1]² reference square — which is
farther than 1e-9 from the reference point (0.5, 0.5) named by the claim.
Second, the claim's unqualified "every affine element" fails without a
nondegeneracy qualifier: the degenerate affine triangle `degenTri` is
supported and affine, the reference point (1, 0) lies in the reference
domain, yet the round trip returns (0, 0, 0) instead of (1, 0, 0). -/
theorem inverse_map_unit_square_center_counterexample :
    (inverse_map 2 ⟨.lagrange, 1⟩ unitSquareQuad ⟨1/2, 1/2, 0⟩ =
        .ok ⟨0, 0, 0⟩ ∧
      ¬ ((⟨0, 0, 0⟩ - ⟨1/2, 1/2, 0⟩ : Point).normSq ≤ ((1 : ℚ)/10^9)^2)) ∧
    (IsAffineElem degenTri ∧
      supportedB 2 ⟨.lagrange, 1⟩ degenTri.type = true ∧
      on_reference_element ⟨1, 0, 0⟩ .Tri3 0 = true ∧
      inverse_map 2 ⟨.lagrange, 1⟩ degenTri
        (forwardMap degenTri ⟨1, 0, 0⟩) ≠ .ok ⟨1, 0, 0⟩) := by
  constructor
  · constructor
    · refine inverse_map_of_affineSolve 2 ⟨.lagrange, 1⟩ unitSquareQuad
        ⟨1/2, 1/2, 0⟩ ⟨0, 0, 0⟩ rfl ?_ usq_forwardMap_center
      simp only [affineSolve, usq_type]
      rw [if_pos usq_affine]
      refine congrArg some ?_
      refine Point.ext_xyz ?_ ?_ ?_ <;>
        (simp [solve2x2, usq_node0, usq_node1, usq_node2, usq_node3]
         try norm_num)
    · simp only [Point.normSq, Point.sub_x, Point.sub_y, Point.sub_z]
      norm_num
  · refine ⟨by trivial, rfl, by norm_num [on_reference_element], ?_⟩
    have hsolve : affineSolve degenTri ⟨0, 0, 0⟩ = some ⟨0, 0, 0⟩ := by
      simp only [affineSolve, degen_type]
      refine congrArg some ?_
      refine Point.ext_xyz ?_ ?_ ?_ <;>
        (simp [solve2x2, degen_node0, degen_node1, degen_node2]
         try norm_num)
    have hok : inverse_map 2 ⟨.lagrange, 1⟩ degenTri ⟨0, 0, 0⟩ =
        .ok ⟨0, 0, 0⟩ :=
      inverse_map_of_affineSolve 2 ⟨.lagrange, 1⟩ degenTri ⟨0, 0, 0⟩
        ⟨0, 0, 0⟩ rfl hsolve (degen_forwardMap _)
    rw [degen_forwardMap, hok]
    intro h
    have hx := congrArg Point.x (Except.ok.inj h)
    norm_num at hx

end FEInterface

end LibMesh
